import Mathlib

/-
Verification of the upnpfuzz fuzzing pipeline (Python) against its
natural-language specification.  The Python modules are shallowly embedded:
byte strings become lists of naturals, random draws become explicit oracle
parameters, socket and filesystem effects become explicit outcome values,
and each Python function is translated into a total Lean function over
those data.
-/

namespace Upnpfuzz

/-- Byte strings (Python bytes) are modelled as lists of naturals. -/
abbrev Bytes := List Nat

/-- UTF-8 encoding of a string, modelled for the ASCII subset that the
program manipulates: each character becomes its code point. -/
def strBytes (s : String) : Bytes := s.toList.map Char.toNat

/-- Python str of a natural number, encoded (decimal digits). -/
def natBytes (n : Nat) : Bytes := strBytes (toString n)

/-- Python str of an integer, encoded (decimal, with a leading minus sign
for negatives, as produced by str on an int). -/
def intBytes (i : Int) : Bytes := strBytes (toString i)

/-- A byte string containing no carriage return (byte 13). -/
def noCR (b : Bytes) : Prop := ∀ c ∈ b, c ≠ 13

instance noCR_decidable (b : Bytes) : Decidable (noCR b) :=
  inferInstanceAs (Decidable (∀ c ∈ b, c ≠ 13))

/- Association lists with Python dict semantics (insertion order kept,
keys unique in well-formed states).  Keys are byte strings. -/

/-- Lookup in a dict modelled as an association list (first matching key). -/
def dictGet? {α : Type} (d : List (Bytes × α)) (k : Bytes) : Option α :=
  (d.find? (fun p => p.1 == k)).map (fun p => p.2)

/-- Membership test for a key, mirroring the Python `in` test on a dict. -/
def dictContains {α : Type} (d : List (Bytes × α)) (k : Bytes) : Bool :=
  d.any (fun p => p.1 == k)

/-- Python dict assignment d[k] = v: update in place when the key exists
(keeping its position), otherwise append the new binding. -/
def dictInsert {α : Type} (d : List (Bytes × α)) (k : Bytes) (v : α) : List (Bytes × α) :=
  if dictContains d k then d.map (fun p => if p.1 == k then (k, v) else p)
  else d ++ [(k, v)]

/-- Python del d[k]: remove the (single, in a well-formed dict) binding
of the key. -/
def dictErase {α : Type} (d : List (Bytes × α)) (k : Bytes) : List (Bytes × α) :=
  d.eraseP (fun p => p.1 == k)

/- fuzzers/injection.py -/

/-- The fixed command token self.cmd = b"reboot". -/
def injection_cmd : Bytes := strBytes "reboot"

/-- The enclosures table of Injection._add_enclosures.  Entry k is the pair
(left, right): (b.., b..) pairs for empty, backtick, dollar-paren, semicolon
and pipe enclosures. -/
def enclosures : List (Bytes × Bytes) :=
  [([], []), ([96], [96]), ([36, 40], [41]), ([59], [59]), ([124], [])]

/-- The delimiters table of Injection._add_delimiters, in source order:
empty, backtick, semicolon, double quote, single quote, pipe, ampersand,
double ampersand, closing paren, CR, LF, percent-0a, percent-0d. -/
def delimiters : List Bytes :=
  [[], [96], [59], [34], [39], [124], [38], [38, 38], [41], [13], [10],
   [37, 48, 97], [37, 48, 100]]

/-- Explicit record of the random draws consumed by one Injection.fuzz call:
the enclosure index (random.choice over 5 entries), the delimiter indices of
the two 0..3-draw passes (each random.randint(0,3) then random.choice), and
the slot index (random.randint(0, len-1)). -/
structure InjectionRand where
  enclosureIdx : Nat
  delims1 : List Nat
  delims2 : List Nat
  slotIdx : Nat

/-- Injection._add_enclosures: wrap the command in the chosen pair. -/
def add_enclosures (k : Nat) (cmd : Bytes) : Bytes :=
  let e := enclosures.getD k ([], [])
  e.1 ++ cmd ++ e.2

/-- One delimiter pass of Injection._add_delimiters: for each drawn index,
append the corresponding delimiter to the command. -/
def add_delimiters (ds : List Nat) (cmd : Bytes) : Bytes :=
  ds.foldl (fun c d => c ++ delimiters.getD d []) cmd

/-- Injection._get_injection: enclosures first, then the two delimiter
passes (the source runs both passes inside one _add_delimiters call). -/
def get_injection (r : InjectionRand) (cmd : Bytes) : Bytes :=
  add_delimiters r.delims2 (add_delimiters r.delims1 (add_enclosures r.enclosureIdx cmd))

/-- Injection.fuzz: append the injection to the slot at the drawn index,
keeping every other slot: request[:idx] plus the extended slot plus
request[idx+1:]. -/
def injection_fuzz (r : InjectionRand) (request : List Bytes) : List Bytes :=
  let injection := get_injection r injection_cmd
  request.take r.slotIdx ++ [request.getD r.slotIdx [] ++ injection]
    ++ request.drop (r.slotIdx + 1)

/- fuzzers/overflow.py is not present under src; it is modelled from the
spec (section 4.3 Overflow). -/

/-- Random draws of one Overflow.fuzz call: slot index, whether the slot is
extended or replaced, and the drawn pattern length. -/
structure OverflowRand where
  slotIdx : Nat
  extend : Bool
  patLen : Nat

/-- Modelled from the spec: fuzzers/overflow.py is absent from src.  The
overflow pattern is a repeated ASCII character (the canonical implementation
multiplies a short ASCII string by a boundary-adjacent length). -/
def overflow_pattern (n : Nat) : Bytes := List.replicate n 65

/-- Modelled from the spec: fuzzers/overflow.py is absent from src.
Overflow.fuzz returns a copy of the slot list in which exactly one randomly
chosen slot is replaced or extended by the long byte pattern. -/
def overflow_fuzz (r : OverflowRand) (request : List Bytes) : List Bytes :=
  request.take r.slotIdx ++
    [if r.extend then request.getD r.slotIdx [] ++ overflow_pattern r.patLen
     else overflow_pattern r.patLen] ++
    request.drop (r.slotIdx + 1)

/- fuzzers/radamsa.py -/

/-- Radamsa.fuzz: identity when the binary was not resolved, otherwise the
bytes produced by the external process (an uninterpreted function here). -/
def radamsa_fuzz (binary : String) (ext : Bytes → Bytes) (request : Bytes) : Bytes :=
  if binary = "" then request else ext request

/- generators/soap.py: data model -/

/-- ActionType enumeration of generators/soap.py. -/
inductive ActionType where
  | ALL
  | IN
  | OUT
deriving DecidableEq

/-- Argument of an action: name, data type tag, default value, allowed
values. -/
structure Argument where
  name : String
  data_type : String
  default_value : String
  allowed_values : List String
deriving DecidableEq

/-- A single SOAP action. -/
structure Action where
  control_url : String
  service_type : String
  action_name : String
  action_type : ActionType
  arguments : List Argument
deriving DecidableEq

/-- Explicit record of the random primitives consumed by one
SOAPRequest._get_argument_value call.  randint models random.randint (both
bounds inclusive), choiceNat models the index drawn by random.choice on a
list of the given length, coin and coin2 the two random.choice piles of
True and False, hDraw
mDraw sDraw the hour
minute
second draws, tzhDraw the
randint(-12,14) draw and tzmDraw the drawn timezone minute value.  The
fields uniformBytes, dateBytes, timeBytes, uuidBytes and base64Render hold
the rendered text of the branches whose computation rests on floating point
arithmetic, calendar arithmetic, uuid generation and base64 encoding, which
are not modelled. -/
structure ArgRand where
  choiceNat : Nat → Nat
  randint : Int → Int → Int
  coin : Bool
  coin2 : Bool
  hDraw : Nat
  mDraw : Nat
  sDraw : Nat
  tzhDraw : Int
  tzmDraw : Nat
  uniformBytes : Bytes
  dateBytes : Bytes
  timeBytes : Bytes
  uuidBytes : Bytes
  base64Render : Nat → Bytes

/-- Python f-string 02d padding of a natural number. -/
def pad2 (n : Nat) : String := if n < 10 then "0" ++ toString n else toString n

/-- The T hh:mm:ss time part built in the dateTime branches. -/
def timePartString (h m s : Nat) : String :=
  "T" ++ pad2 h ++ ":" ++ pad2 m ++ ":" ++ pad2 s

/-- The timezone offset string built in the tz branches. -/
def tzString (tzh : Int) (tzm : Nat) : String :=
  if tzh < 0 then "-" ++ pad2 (-tzh).toNat ++ ":" ++ pad2 tzm
  else "+" ++ pad2 tzh.toNat ++ ":" ++ pad2 tzm

/-- SOAPRequest._get_argument_value, value part: the if-chain of the source
in order: allowed values, then default value, then dispatch on the data
type tag. -/
def get_argument_value_bytes (r : ArgRand) (argument : Argument) : Bytes :=
  if !argument.allowed_values.isEmpty then
    strBytes (argument.allowed_values.getD (r.choiceNat argument.allowed_values.length) "")
  else if argument.default_value ≠ "" then
    strBytes argument.default_value
  else if argument.data_type = "ui1" then intBytes (r.randint 0 255)
  else if argument.data_type = "ui2" then intBytes (r.randint 0 65535)
  else if argument.data_type = "ui4" then intBytes (r.randint 0 4294967295)
  else if argument.data_type = "i1" then intBytes (r.randint (-128) 127)
  else if argument.data_type = "i2" then intBytes (r.randint (-32768) 32767)
  else if argument.data_type = "i4" then intBytes (r.randint (-2147483648) 2147483647)
  else if argument.data_type = "boolean" then
    [strBytes "0", strBytes "1", strBytes "true", strBytes "false",
     strBytes "yes", strBytes "no"].getD (r.choiceNat 6) []
  else if argument.data_type = "string" then strBytes "192.168.1.4"
  else if argument.data_type = "number" then r.uniformBytes
  else if argument.data_type = "fixed.14.14" then r.uniformBytes
  else if argument.data_type = "float" then r.uniformBytes
  else if argument.data_type = "char" then strBytes "A"
  else if argument.data_type = "date" then r.dateBytes
  else if argument.data_type = "dateTime" then
    if r.coin then r.dateBytes ++ strBytes (timePartString r.hDraw r.mDraw r.sDraw)
    else r.dateBytes
  else if argument.data_type = "dateTime.tz" then
    r.dateBytes ++ (if r.coin then strBytes (timePartString r.hDraw r.mDraw r.sDraw) else [])
      ++ (if r.coin2 then strBytes (tzString r.tzhDraw r.tzmDraw) else [])
  else if argument.data_type = "time" then r.timeBytes
  else if argument.data_type = "time.tz" then r.timeBytes ++ strBytes (tzString r.tzhDraw r.tzmDraw)
  else if argument.data_type = "bin.base64" then r.base64Render (r.randint 0 255).toNat
  else if argument.data_type = "bin.hex" then
    (List.replicate (r.randint 0 255).toNat (strBytes "41")).flatten
  else if argument.data_type = "uri" then strBytes "http://127.0.0.1/path"
  else if argument.data_type = "uuid" then r.uuidBytes
  else List.replicate (r.randint 0 255).toNat 65

/-- SOAPRequest._get_argument_value: the returned parameter list wrapping
the value in the argument name tags. -/
def get_argument_value (r : ArgRand) (argument : Argument) : List Bytes :=
  [strBytes "<", strBytes argument.name, strBytes ">",
   get_argument_value_bytes r argument,
   strBytes "</", strBytes argument.name, strBytes ">\n"]

/-- SOAPRequest.get_headers_params: the six header slots. -/
def soap_get_headers_params (action : Action) (host : String) (port : Nat)
    (content_length : Nat) : List Bytes :=
  [strBytes action.control_url, strBytes host, natBytes port,
   natBytes content_length, strBytes action.service_type,
   strBytes action.action_name]

/-- SOAPRequest.finalize_headers: interleave the six slots with the literal
framing bytes.  A slot list of any other length makes the source raise on
unpacking; that case is unreachable from the call sites and yields the
empty byte string here. -/
def soap_finalize_headers (headers_params : List Bytes) : Bytes :=
  match headers_params with
  | [control_url, host, port, content_length, service_type, action_name] =>
    strBytes "POST " ++ control_url ++ strBytes " HTTP/1.1\r\n" ++
    strBytes "Host: " ++ host ++ strBytes ":" ++ port ++ strBytes "\r\n" ++
    strBytes "Content-Length: " ++ content_length ++ strBytes "\r\n" ++
    strBytes "Content-Type: text/xml\r\n" ++
    strBytes "SOAPAction: \"" ++ service_type ++ strBytes "#" ++ action_name ++
    strBytes "\"\r\n" ++ strBytes "\r\n"
  | _ => []

/-- SOAPRequest.get_body_params: empty for an OUT action, otherwise the
envelope slots around the per-argument value slots.  rs gives the random
draws consumed for the argument at each position. -/
def soap_get_body_params (rs : Nat → ArgRand) (action : Action) : List Bytes :=
  if action.action_type = ActionType.IN then
    let args := (action.arguments.enum.map (fun p => get_argument_value (rs p.1) p.2)).flatten
    [strBytes "<?xml version=\"1.0\"?>\n",
     strBytes "<SOAP-ENV:Envelope xmlns:SOAP-ENV=\"http://schemas.xmlsoap.org/soap/envelope\" SOAP-ENV:encodingStyle=\"http://schemas.xmlsoap.org/soap/encoding/\">\n",
     strBytes "<SOAP-ENV:Body>\n",
     strBytes "<m:", strBytes action.action_name, strBytes " ",
     strBytes "xmlns:m=\"", strBytes action.service_type, strBytes "\">\n"]
    ++ args ++
    [strBytes "</m:", strBytes action.action_name, strBytes ">\n",
     strBytes "</SOAP-ENV:Body>\n",
     strBytes "</SOAP-ENV:Envelope>\n"]
  else []

/-- SOAPRequest.finalize_body: join the body slots with no separator. -/
def soap_finalize_body (body_params : List Bytes) : Bytes := body_params.flatten

/- protocols/soap.py: the four strategy functions.  Each returns the final
wire bytes (the strategy tag of the pair is fixed per function). -/

/-- SOAP.fuzz_raw: finalize body, build headers against its length. -/
def soap_fuzz_raw (rs : Nat → ArgRand) (action : Action) (host : String)
    (port : Nat) : Bytes :=
  let body_params := soap_get_body_params rs action
  let request_body := soap_finalize_body body_params
  let headers_params := soap_get_headers_params action host port request_body.length
  soap_finalize_headers headers_params ++ request_body

/-- SOAP.fuzz_injection: with a non-empty body and a true coin, mutate the
body slots and build headers against the new body length; otherwise build
headers against the body length and mutate the header slots. -/
def soap_fuzz_injection (rs : Nat → ArgRand) (ir : InjectionRand) (coin : Bool)
    (action : Action) (host : String) (port : Nat) : Bytes :=
  let body_params := soap_get_body_params rs action
  if !body_params.isEmpty && coin then
    let body_params2 := injection_fuzz ir body_params
    let request_body := soap_finalize_body body_params2
    let headers_params := soap_get_headers_params action host port request_body.length
    soap_finalize_headers headers_params ++ request_body
  else
    let request_body := soap_finalize_body body_params
    let headers_params :=
      injection_fuzz ir (soap_get_headers_params action host port request_body.length)
    soap_finalize_headers headers_params ++ request_body

/-- SOAP.fuzz_overflow: same branch structure as fuzz_injection with the
overflow mutator. -/
def soap_fuzz_overflow (rs : Nat → ArgRand) (orr : OverflowRand) (coin : Bool)
    (action : Action) (host : String) (port : Nat) : Bytes :=
  let body_params := soap_get_body_params rs action
  if !body_params.isEmpty && coin then
    let body_params2 := overflow_fuzz orr body_params
    let request_body := soap_finalize_body body_params2
    let headers_params := soap_get_headers_params action host port request_body.length
    soap_finalize_headers headers_params ++ request_body
  else
    let request_body := soap_finalize_body body_params
    let headers_params :=
      overflow_fuzz orr (soap_get_headers_params action host port request_body.length)
    soap_finalize_headers headers_params ++ request_body

/-- SOAP.fuzz_radamsa: with a non-empty body and a true coin, pass the
finalized body through radamsa and build headers against the new length;
otherwise build headers against the body length and pass only the finalized
headers through radamsa. -/
def soap_fuzz_radamsa (rs : Nat → ArgRand) (binary : String) (ext : Bytes → Bytes)
    (coin : Bool) (action : Action) (host : String) (port : Nat) : Bytes :=
  let body_params := soap_get_body_params rs action
  let request_body := soap_finalize_body body_params
  if !body_params.isEmpty && coin then
    let request_body2 := radamsa_fuzz binary ext request_body
    soap_finalize_headers (soap_get_headers_params action host port request_body2.length)
      ++ request_body2
  else
    radamsa_fuzz binary ext
        (soap_finalize_headers (soap_get_headers_params action host port request_body.length))
      ++ request_body

/- Wire-level extraction of the Content-Length header and of the body that
follows the headers. -/

/-- CRLF separator bytes. -/
def crlfB : Bytes := [13, 10]

/-- The blank-line separator ending an HTTP header block. -/
def crlf2B : Bytes := [13, 10, 13, 10]

/-- Split a byte string at every CRLF (leftmost-first, non-overlapping). -/
def splitCRLF : Bytes → List Bytes
  | [] => [[]]
  | [c] => [[c]]
  | c :: d :: rest =>
    if c = 13 ∧ d = 10 then [] :: splitCRLF rest
    else
      match splitCRLF (d :: rest) with
      | [] => [[c]]
      | l :: ls => (c :: l) :: ls

/-- The literal header-name bytes in front of a Content-Length value. -/
def clHeader : Bytes := strBytes "Content-Length: "

/-- The value of the first Content-Length header line of the wire bytes. -/
def extract_content_length (wire : Bytes) : Option Bytes :=
  ((splitCRLF wire).find? (fun line => clHeader.isPrefixOf line)).map
    (fun line => line.drop clHeader.length)

/-- Everything after the first occurrence of the pattern in the byte
string. -/
def dropAfterSub (pat : Bytes) : Bytes → Option Bytes
  | [] => none
  | c :: rest =>
    if pat.isPrefixOf (c :: rest) then some (List.drop pat.length (c :: rest))
    else dropAfterSub pat rest

/-- The body part of wire bytes: everything after the first blank line. -/
def body_after_headers (wire : Bytes) : Option Bytes := dropAfterSub crlf2B wire

/- generators/esp.py -/

/-- NewSubscribe request object (fields as encoded by its init). -/
structure NewSubscribeReq where
  event : Bytes
  host : Bytes
  port : Bytes
  callback : Bytes
deriving DecidableEq

/-- NewSubscribe init. -/
def mkNewSubscribe (event host : String) (port : Nat) (callback : String) : NewSubscribeReq :=
  ⟨strBytes event, strBytes host, natBytes port, strBytes callback⟩

/-- NewSubscribe.get_headers_params. -/
def newSubscribeHeadersParams (r : NewSubscribeReq) : List Bytes :=
  [r.event, r.host, r.port, r.callback, strBytes "upnp:event", strBytes "Second-7200"]

/-- NewSubscribe.finalize_headers. -/
def newSubscribeFinalize (headers_params : List Bytes) : Bytes :=
  match headers_params with
  | [event, host, port, callback, nt, timeout] =>
    strBytes "SUBSCRIBE " ++ event ++ strBytes " HTTP/1.1\r\n" ++
    strBytes "HOST: " ++ host ++ strBytes ":" ++ port ++ strBytes "\r\n" ++
    strBytes "CALLBACK: " ++ strBytes "<" ++ callback ++ strBytes ">\r\n" ++
    strBytes "NT: " ++ nt ++ strBytes "\r\n" ++
    strBytes "TIMEOUT: " ++ timeout ++ strBytes "\r\n" ++ strBytes "\r\n"
  | _ => []

/-- RenewalSubscribe request object. -/
structure RenewalSubscribeReq where
  event : Bytes
  host : Bytes
  port : Bytes
  sid : Bytes
deriving DecidableEq

/-- RenewalSubscribe init. -/
def mkRenewalSubscribe (event host : String) (port : Nat) (sid : Bytes) : RenewalSubscribeReq :=
  ⟨strBytes event, strBytes host, natBytes port, sid⟩

/-- RenewalSubscribe.finalize_headers. -/
def renewalSubscribeFinalize (headers_params : List Bytes) : Bytes :=
  match headers_params with
  | [event, host, port, sid, timeout] =>
    strBytes "SUBSCRIBE " ++ event ++ strBytes " HTTP/1.1\r\n" ++
    strBytes "HOST: " ++ host ++ strBytes ":" ++ port ++ strBytes "\r\n" ++
    strBytes "SID: " ++ sid ++ strBytes "\r\n" ++
    strBytes "TIMEOUT: " ++ timeout ++ strBytes "\r\n" ++ strBytes "\r\n"
  | _ => []

/-- Unsubscribe request object. -/
structure UnsubscribeReq where
  event : Bytes
  host : Bytes
  port : Bytes
  sid : Bytes
deriving DecidableEq

/-- Unsubscribe init. -/
def mkUnsubscribe (event host : String) (port : Nat) (sid : Bytes) : UnsubscribeReq :=
  ⟨strBytes event, strBytes host, natBytes port, sid⟩

/-- Unsubscribe.finalize_headers. -/
def unsubscribeFinalize (headers_params : List Bytes) : Bytes :=
  match headers_params with
  | [event, host, port, sid] =>
    strBytes "UNSUBSCRIBE " ++ event ++ strBytes " HTTP/1.1\r\n" ++
    strBytes "HOST: " ++ host ++ strBytes ":" ++ port ++ strBytes "\r\n" ++
    strBytes "SID: " ++ sid ++ strBytes "\r\n" ++ strBytes "\r\n"
  | _ => []

/-- Mutable state of an ESPGenerator: event URLs, the SID table (dict from
SID bytes to the event URL string that produced it), the current event, the
callback and the parsed host and port. -/
structure ESPGen where
  events : List String
  sids : List (Bytes × String)
  event : String
  callback : String
  host : String
  port : Nat
deriving DecidableEq

/-- Random draws consumed by one ESP request-synthesis call: the index
drawn by random.choice on a list of the given length. -/
structure EspRand where
  choiceNat : Nat → Nat

/-- Python truthiness of the optional SID value: None and the empty byte
string are falsy. -/
def pyTruthyBytes : Option Bytes → Bool
  | some b => !b.isEmpty
  | none => false

/-- ESPGenerator.get_new_subscribe_request: draw an event, remember it as
self.event, build the request. -/
def get_new_subscribe_request (r : EspRand) (g : ESPGen) : NewSubscribeReq × ESPGen :=
  let event := g.events.getD (r.choiceNat g.events.length) ""
  (mkNewSubscribe event g.host g.port g.callback, { g with event := event })

/-- ESPGenerator.get_renewal_subscribe_request: draw a SID from the table
when the table is non-empty; a truthy SID uses its stored event URL, a
falsy one (None or empty bytes) falls back to the placeholder SID and a
random event. -/
def get_renewal_subscribe_request (r : EspRand) (g : ESPGen) : RenewalSubscribeReq × ESPGen :=
  let all_sids := g.sids.map Prod.fst
  let sid? := if all_sids.isEmpty then none
              else some (all_sids.getD (r.choiceNat all_sids.length) [])
  if pyTruthyBytes sid? then
    let sid := sid?.getD []
    let event := (dictGet? g.sids sid).getD ""
    (mkRenewalSubscribe event g.host g.port sid, g)
  else
    let sid := strBytes "uuid:1234-5678-90ab-cdef"
    let event := g.events.getD (r.choiceNat g.events.length) ""
    (mkRenewalSubscribe event g.host g.port sid, g)

/-- ESPGenerator.get_unsubscribe_request: same selection rule as the
renewal, but a truthy drawn SID is deleted from the table before the
request object is built. -/
def get_unsubscribe_request (r : EspRand) (g : ESPGen) : UnsubscribeReq × ESPGen :=
  let all_sids := g.sids.map Prod.fst
  let sid? := if all_sids.isEmpty then none
              else some (all_sids.getD (r.choiceNat all_sids.length) [])
  if pyTruthyBytes sid? then
    let sid := sid?.getD []
    let event := (dictGet? g.sids sid).getD ""
    (mkUnsubscribe event g.host g.port sid, { g with sids := dictErase g.sids sid })
  else
    let sid := strBytes "uuid:1234-5678-90ab-cdef"
    let event := g.events.getD (r.choiceNat g.events.length) ""
    (mkUnsubscribe event g.host g.port sid, g)

/-- The lazy group of the regex b"SID: (.*?)\r\n" starting right after the
literal SID tag: collect bytes (any byte except LF, which the dot of the
pattern cannot match) up to the first CRLF; fail on a bare LF or at the end
of input. -/
def scanValue : Bytes → Option Bytes
  | [] => none
  | [_] => none
  | c :: d :: rest =>
    if c = 13 ∧ d = 10 then some []
    else if c = 10 then none
    else (scanValue (d :: rest)).map (fun v => c :: v)

/-- The literal bytes of the SID header tag searched by handle_sid. -/
def sidTag : Bytes := strBytes "SID: "

/-- re.search(b"SID: (.*?)\r\n", response) group 1: leftmost match wins;
when the tag matches at a position but no CRLF terminates the group, the
search resumes one byte further. -/
def findSID : Bytes → Option Bytes
  | [] => none
  | c :: rest =>
    if sidTag.isPrefixOf (c :: rest) then
      match scanValue (List.drop sidTag.length (c :: rest)) with
      | some v => some v
      | none => findSID rest
    else findSID rest

/-- ESPGenerator.handle_sid: on a match, bind the matched SID to the
current event in the table; otherwise leave the generator unchanged. -/
def esp_handle_sid (g : ESPGen) (response : Bytes) : ESPGen :=
  match findSID response with
  | some sid => { g with sids := dictInsert g.sids sid g.event }
  | none => g

/- network.py -/

/-- NetworkProtocol enumeration. -/
inductive NetworkProtocol where
  | TCP
  | UDP
deriving DecidableEq

/-- A NetworkStats object under Python attribute semantics: the dataclass
fields carry no type annotations, so they are class attributes, and an
instance attribute only appears once an augmented assignment writes it.
none means the attribute is not set on the instance and the class
attribute is read instead. -/
structure StatsObj where
  total_requests : Option Nat
  timeouts : Option Nat
  errors : Option Nat
  start_time : Option Nat
deriving DecidableEq

/-- The class attributes of NetworkStats: start_time is evaluated exactly
once, when network.py is imported (datetime.datetime.now() in the class
body); the three counters are the literal 0. -/
structure NetworkStatsClass where
  start_time : Nat
deriving DecidableEq

/-- Effective total_requests attribute (instance, else class value 0). -/
def statsTotal (o : StatsObj) : Nat := o.total_requests.getD 0

/-- Effective timeouts attribute. -/
def statsTimeouts (o : StatsObj) : Nat := o.timeouts.getD 0

/-- Effective errors attribute. -/
def statsErrors (o : StatsObj) : Nat := o.errors.getD 0

/-- Effective start_time attribute: instances never set it, so the class
attribute (the import-time clock value) is read. -/
def statsStartTime (cls : NetworkStatsClass) (o : StatsObj) : Nat :=
  o.start_time.getD cls.start_time

/-- NetworkStats(): the generated init takes no arguments and sets no
instance attributes, because no field of the dataclass is annotated. -/
def mkNetworkStats : StatsObj := ⟨none, none, none, none⟩

/-- State of one Network instance. -/
structure NetworkState where
  host : String
  port : Nat
  network_protocol : NetworkProtocol
  stats : StatsObj
  network_timeout : Nat
  interface_ip : String
deriving DecidableEq

/-- Network.init at the given wall-clock time: a fresh NetworkStats()
whose observable start_time is the import-time class value, so the
constructTime argument is not consumed anywhere. -/
def network_init (host : String) (port : Nat) (network_protocol : NetworkProtocol)
    (network_timeout : Nat) (interface_ip : String) (constructTime : Nat) : NetworkState :=
  { host := host, port := port, network_protocol := network_protocol,
    stats := mkNetworkStats, network_timeout := network_timeout,
    interface_ip := interface_ip }

/-- Outcome of the socket operations inside one send_tcp call. -/
inductive TcpOutcome where
  | ok (resp : Bytes)
  | timeout
  | sockError
deriving DecidableEq

/-- Outcome of the sendto call inside send_udp: OSError covers every
failure of the datagram send, timeouts included. -/
inductive UdpSendOutcome where
  | sent
  | osError
deriving DecidableEq

/-- Outcome of the recvfrom call inside send_udp. -/
inductive UdpRecvOutcome where
  | ok (resp : Bytes)
  | timeout
  | sockError
deriving DecidableEq

/-- Python augmented assignment self.stats.total_requests += 1: read the
effective value, write the instance attribute. -/
def incTotal (o : StatsObj) : StatsObj := { o with total_requests := some (statsTotal o + 1) }

/-- self.stats.timeouts += 1. -/
def incTimeouts (o : StatsObj) : StatsObj := { o with timeouts := some (statsTimeouts o + 1) }

/-- self.stats.errors += 1. -/
def incErrors (o : StatsObj) : StatsObj := { o with errors := some (statsErrors o + 1) }

/-- Network.send_tcp: count the attempt, then connect, send and receive;
socket.timeout bumps timeouts, any other socket.error bumps errors, both
returning empty bytes.  Totality of this function models that the source
catches every socket exception. -/
def send_tcp (st : StatsObj) (oc : TcpOutcome) : StatsObj × Bytes :=
  let st1 := incTotal st
  match oc with
  | .ok resp => (st1, resp)
  | .timeout => (incTimeouts st1, [])
  | .sockError => (incErrors st1, [])

/-- Network.send_udp: count the attempt; an OSError of sendto returns
empty bytes at once without touching the failure counters; then one
recvfrom, whose timeout bumps timeouts and whose other socket.error bumps
errors, both returning empty bytes. -/
def send_udp (st : StatsObj) (so : UdpSendOutcome) (ro : UdpRecvOutcome) : StatsObj × Bytes :=
  let st1 := incTotal st
  match so with
  | .osError => (st1, [])
  | .sent =>
    match ro with
    | .ok resp => (st1, resp)
    | .timeout => (incTimeouts st1, [])
    | .sockError => (incErrors st1, [])

/-- Network.send: dispatch on the protocol. -/
def network_send (n : NetworkState) (tcpOc : TcpOutcome) (so : UdpSendOutcome)
    (ro : UdpRecvOutcome) : StatsObj × Bytes :=
  match n.network_protocol with
  | .TCP => send_tcp n.stats tcpOc
  | .UDP => send_udp n.stats so ro

/-- A world of two independent Network stats objects; a TCP send on the
first instance. -/
def world_send_fst (w : StatsObj × StatsObj) (oc : TcpOutcome) :
    (StatsObj × StatsObj) × Bytes :=
  let r := send_tcp w.1 oc
  ((r.1, w.2), r.2)

/- monitor.py -/

/-- Strategy enumeration of protocols/base.py. -/
inductive Strategy where
  | RAW
  | ALL
  | RADAMSA
  | INJECTION
  | OVERFLOW
deriving DecidableEq

/-- The value attribute of the Strategy enum members. -/
def Strategy.value : Strategy → String
  | .RAW => "raw"
  | .ALL => "all"
  | .RADAMSA => "radamsa"
  | .INJECTION => "injection"
  | .OVERFLOW => "overflow"

/-- A wall-clock timestamp as consumed by the crash file name. -/
structure Timestamp where
  hour : Nat
  minute : Nat
  second : Nat
  day : Nat
  month : Nat
  year : Nat
deriving DecidableEq

/-- strftime with format H_M_S_d_m_Y: two-digit-padded fields joined by
underscores (the year of datetime.now() has four digits). -/
def strftimeHMSDMY (t : Timestamp) : String :=
  pad2 t.hour ++ "_" ++ pad2 t.minute ++ "_" ++ pad2 t.second ++ "_" ++
  pad2 t.day ++ "_" ++ pad2 t.month ++ "_" ++ toString t.year

/-- Monitor state. -/
structure MonitorState where
  alive_url : String
  crash_dir : String
  crashes : Nat
  restart_cmd : String
  restart_delay : Nat
deriving DecidableEq

/-- A filesystem write performed by save_crash. -/
structure FileWrite where
  path : String
  contents : Bytes
deriving DecidableEq

/-- Monitor.save_crash at the given wall-clock time: bump the counter,
then write the request bytes to crash_dir slash
generator_strategyvalue_ordinal_at_timestamp. -/
def save_crash (m : MonitorState) (generator_name : String) (strategy : Strategy)
    (request : Bytes) (now : Timestamp) : MonitorState × FileWrite :=
  let crashes := m.crashes + 1
  let filename := generator_name ++ "_" ++ strategy.value ++ "_" ++ toString crashes
    ++ "_at_" ++ strftimeHMSDMY now
  ({ m with crashes := crashes },
   { path := m.crash_dir ++ "/" ++ filename, contents := request })

/-- Monitor.handle_crash: save the crash, then run the restart command and
poll liveness; neither of the latter touches the monitor counters or
writes files, so the observable effect equals save_crash. -/
def handle_crash (m : MonitorState) (generator_name : String) (strategy : Strategy)
    (request : Bytes) (now : Timestamp) : MonitorState × FileWrite :=
  save_crash m generator_name strategy request now

/- main.py: the bootstrap-failure path of the soap and esp subcommands. -/

/-- What the SOAP grammar bootstrap produced: a request exception on the
description fetch, or the action catalog built from the parsed services. -/
inductive SoapBootstrap where
  | fetchError
  | parsed (actions : List Action)

/-- SOAPGenerator.generate_grammar result: False on a fetch exception,
otherwise True exactly when the action catalog is non-empty. -/
def soap_generate_grammar : SoapBootstrap → Bool
  | .fetchError => false
  | .parsed actions => !actions.isEmpty

/-- What the ESP grammar bootstrap produced. -/
inductive EspBootstrap where
  | fetchError
  | parsed (events : List String)

/-- ESPGenerator.generate_grammar result. -/
def esp_generate_grammar : EspBootstrap → Bool
  | .fetchError => false
  | .parsed events => !events.isEmpty

/-- Observable outcome of one main() invocation: whether the failure was
logged with print_error, whether the fuzz loop was entered, and the process
exit status. -/
structure MainOutcome where
  logged_error : Bool
  loop_started : Bool
  exit_code : Nat
deriving DecidableEq

/-- The soap branch of main(): when generate_grammar returns False, main
logs with print_error and returns None, so the console-script wrapper calls
sys.exit(None) and the process status is 0.  When it returns True the
selected mode runs (the loop starts for the raw and fuzz modes). -/
def main_soap_branch (b : SoapBootstrap) : MainOutcome :=
  if soap_generate_grammar b then ⟨false, true, 0⟩
  else ⟨true, false, 0⟩

/-- The esp branch of main(), identical in shape. -/
def main_esp_branch (b : EspBootstrap) : MainOutcome :=
  if esp_generate_grammar b then ⟨false, true, 0⟩
  else ⟨true, false, 0⟩

/- utils.py: parse_url -/

/-- Python str.split(":") on a character list: every colon splits, empty
parts are kept. -/
def splitColon : List Char → List (List Char)
  | [] => [[]]
  | c :: rest =>
    if c = ':' then [] :: splitColon rest
    else
      match splitColon rest with
      | [] => [[c]]
      | l :: ls => (c :: l) :: ls

/-- Rejoin the parts with colons (inverse of splitColon). -/
def joinColon : List (List Char) → List Char
  | [] => []
  | [x] => x
  | x :: xs => x ++ ':' :: joinColon xs

/-- ASCII whitespace stripped by Python int() (the unicode whitespace
accepted by int() beyond ASCII is not modelled). -/
def pyWs (c : Char) : Bool :=
  c = ' ' || c = '\t' || c = '\n' || c = '\r' || c.toNat = 11 || c.toNat = 12

/-- Strip leading and trailing whitespace. -/
def stripWs (l : List Char) : List Char :=
  ((l.dropWhile pyWs).reverse.dropWhile pyWs).reverse

/-- Digit run with Python underscore grouping: an underscore must stand
between two digits. -/
def pyDigitsAux : Nat → List Char → Option Nat
  | acc, [] => some acc
  | acc, c :: rest =>
    if c.isDigit then pyDigitsAux (acc * 10 + (c.toNat - 48)) rest
    else if c = '_' then
      match rest with
      | d :: rest2 =>
        if d.isDigit then pyDigitsAux (acc * 10 + (d.toNat - 48)) rest2 else none
      | [] => none
    else none

/-- Non-empty digit run starting with a digit. -/
def pyDigits : List Char → Option Nat
  | [] => none
  | c :: rest => if c.isDigit then pyDigitsAux (c.toNat - 48) rest else none

/-- Python int(string): strip whitespace, optional sign, digits. -/
def pyInt? (l : List Char) : Option Int :=
  match stripWs l with
  | '+' :: rest => (pyDigits rest).map (fun n => (n : Int))
  | '-' :: rest => (pyDigits rest).map (fun n => -(n : Int))
  | rest => (pyDigits rest).map (fun n => (n : Int))

/-- The exception kinds that matter here. -/
inductive PyError where
  | valueError
deriving DecidableEq

/-- utils.parse_url after urlparse has produced scheme and netloc: build
the base url, then unpack netloc.split(":") into host and port and convert
the port with int().  A netloc without exactly one colon fails the
unpacking; a non-numeric port fails int().  Both raise ValueError, which no
caller catches. -/
def parse_url (scheme netloc : List Char) : Except PyError (List Char × List Char × Int) :=
  match splitColon netloc with
  | [h, p] =>
    match pyInt? p with
    | some n => .ok (scheme ++ String.toList "://" ++ netloc, h, n)
    | none => .error .valueError
  | _ => .error .valueError

/-- The fields SOAP.init derives from parse_url before any grammar work. -/
structure SOAPProtoInit where
  base_url : List Char
  host : List Char
  port : Int
deriving DecidableEq

/-- SOAP.init up to its parse_url call: the ValueError propagates out of
the constructor, before generate_grammar can even be called. -/
def soap_protocol_init (scheme netloc : List Char) : Except PyError SOAPProtoInit :=
  match parse_url scheme netloc with
  | .ok (b, h, p) => .ok ⟨b, h, p⟩
  | .error e => .error e

/-- ESPGenerator.init up to its parse_url call (the ESP protocol
constructor builds this generator before any grammar work). -/
def esp_generator_init (scheme netloc : List Char) (callback : String) :
    Except PyError (List Char × Int × String) :=
  match parse_url scheme netloc with
  | .ok (_, h, p) => .ok (h, p, callback)
  | .error e => .error e

/- Concrete inputs used by witnesses and counterexamples. -/

/-- An ArgRand whose draws are all at the low end. -/
def dummyArgRand : ArgRand :=
  { choiceNat := fun _ => 0, randint := fun a _ => a, coin := false, coin2 := false,
    hDraw := 0, mDraw := 0, sDraw := 0, tzhDraw := 0, tzmDraw := 0,
    uniformBytes := [], dateBytes := [], timeBytes := [], uuidBytes := [],
    base64Render := fun _ => [] }

/-- A per-argument draw sequence that always answers with dummyArgRand. -/
def dummyRandSeq : Nat → ArgRand := fun _ => dummyArgRand

/-- An EspRand that always draws index 0. -/
def zeroEspRand : EspRand := ⟨fun _ => 0⟩

/-- An output-only action (empty body). -/
def cexActionOut : Action :=
  { control_url := "/ctl", service_type := "urn:svc", action_name := "Act",
    action_type := ActionType.OUT, arguments := [] }

/-- Injection draws that hit the Content-Length header slot (index 3) with
the plain enclosure and no delimiters. -/
def cexInjRand : InjectionRand :=
  { enclosureIdx := 0, delims1 := [], delims2 := [], slotIdx := 3 }

/-- The wire bytes of a SOAP injection request whose mutated slot is the
Content-Length header slot. -/
def cexSoapWire : Bytes :=
  soap_fuzz_injection dummyRandSeq cexInjRand false cexActionOut "h" 1

/-- An ESP generator state whose table holds one empty SID key. -/
def cexEspGen : ESPGen :=
  { events := ["/e"], sids := [([], "e")], event := "", callback := "cb",
    host := "h", port := 1 }

/-- An ESP generator state with an empty table and a remembered event. -/
def espGenW : ESPGen :=
  { events := ["/evt"], sids := [], event := "/evt", callback := "cb",
    host := "h", port := 1 }

/-- An ESP generator state whose table holds one ordinary SID. -/
def espGenW2 : ESPGen :=
  { events := ["/evt"], sids := [(strBytes "s1", "/e")], event := "", callback := "cb",
    host := "h", port := 1 }

/-- An argument of integer type ui1 with no allowed and no default value. -/
def argUi1W : Argument :=
  { name := "Arg", data_type := "ui1", default_value := "", allowed_values := [] }

/- Helper lemmas. -/

theorem toDigitsCore_digits (fuel n : Nat) (ds : List Char)
    (hds : ∀ c ∈ ds, 48 ≤ c.toNat ∧ c.toNat ≤ 57) :
    ∀ c ∈ Nat.toDigitsCore 10 fuel n ds, 48 ≤ c.toNat ∧ c.toNat ≤ 57 := by
  induction fuel generalizing n ds with
  | zero => simpa [Nat.toDigitsCore] using hds
  | succ fuel ih =>
    rw [Nat.toDigitsCore]
    have hd : 48 ≤ (Nat.digitChar (n % 10)).toNat ∧ (Nat.digitChar (n % 10)).toNat ≤ 57 := by
      have h10 : n % 10 < 10 := by omega
      interval_cases h : n % 10 <;> decide
    split
    · intro c hc
      rcases List.mem_cons.mp hc with hc | hc
      · exact hc ▸ hd
      · exact hds c hc
    · exact ih (n / 10) _ (by
        intro c hc
        rcases List.mem_cons.mp hc with hc | hc
        · exact hc ▸ hd
        · exact hds c hc)

theorem natBytes_digits (n : Nat) : ∀ c ∈ natBytes n, 48 ≤ c ∧ c ≤ 57 := by
  intro c hc
  rcases List.mem_map.mp hc with ⟨ch, hch, hceq⟩
  have hlist : (toString n).toList = Nat.toDigits 10 n := rfl
  rw [hlist, Nat.toDigits] at hch
  have := toDigitsCore_digits (n + 1) n [] (by simp) ch hch
  omega

theorem natBytes_noCR (n : Nat) : noCR (natBytes n) := by
  intro c hc
  have := natBytes_digits n c hc
  omega

theorem noCR_append {a b : Bytes} (ha : noCR a) (hb : noCR b) : noCR (a ++ b) := by
  intro c hc
  rcases List.mem_append.mp hc with h | h
  · exact ha c h
  · exact hb c h

theorem noCR_cons {c : Nat} {a : Bytes} (hc : c ≠ 13) (ha : noCR a) : noCR (c :: a) := by
  intro d hd
  rcases List.mem_cons.mp hd with h | h
  · exact h ▸ hc
  · exact ha d h

/- C8: crash handling. -/

/-- C8: on every detected crash the monitor bumps the crash counter by
exactly one and writes the triggering request bytes, unmodified, to a file
named generator_strategyvalue_ordinal_at_timestamp under the crash
directory, where the ordinal is the number of crashes handled so far in the
session (the just-incremented counter). -/
theorem handle_crash_spec (m : MonitorState) (g : String) (s : Strategy)
    (req : Bytes) (now : Timestamp) :
    (handle_crash m g s req now).1.crashes = m.crashes + 1 ∧
    (handle_crash m g s req now).2.path =
      m.crash_dir ++ "/" ++ (g ++ "_" ++ s.value ++ "_" ++ toString (m.crashes + 1)
        ++ "_at_" ++ strftimeHMSDMY now) ∧
    (handle_crash m g s req now).2.contents = req :=
  ⟨rfl, rfl, rfl⟩

/- C2: bootstrap failure handling in main. -/

/-- C2 counterexample: on every listed bootstrap failure (fetch error or
empty catalog or empty event set) the program logs and the loop never
starts, but the process exit status is 0, not non-zero. -/
theorem main_bootstrap_failure_cex :
    (main_soap_branch .fetchError).logged_error = true ∧
    (main_soap_branch .fetchError).loop_started = false ∧
    (main_soap_branch .fetchError).exit_code = 0 ∧
    ¬ (main_soap_branch .fetchError).exit_code ≠ 0 ∧
    (main_soap_branch (.parsed [])).exit_code = 0 ∧
    (main_esp_branch .fetchError).exit_code = 0 ∧
    (main_esp_branch (.parsed [])).exit_code = 0 := by
  decide

/-- C2 amended: when grammar bootstrap fails the program logs the failure
and the fuzz loop never starts, but the process exits normally with exit
code 0 (main returns None, so the console-script wrapper exits with
status 0). -/
theorem main_bootstrap_failure_spec (bs : SoapBootstrap) (be : EspBootstrap)
    (hs : soap_generate_grammar bs = false) (he : esp_generate_grammar be = false) :
    main_soap_branch bs = ⟨true, false, 0⟩ ∧ main_esp_branch be = ⟨true, false, 0⟩ := by
  constructor
  · simp [main_soap_branch, hs]
  · simp [main_esp_branch, he]

/-- C2 witness: the amended theorem applied to a fetch failure. -/
theorem main_bootstrap_failure_spec_witness :
    main_soap_branch .fetchError = ⟨true, false, 0⟩ ∧
    main_esp_branch .fetchError = ⟨true, false, 0⟩ :=
  main_bootstrap_failure_spec .fetchError .fetchError rfl rfl

/- C3: transport failure taxonomy. -/

/-- C3 counterexample: a transport error raised by the UDP datagram send
(an OSError from sendto, which is not a receive timeout) returns empty
bytes but increments neither errors nor timeouts, only total_requests. -/
theorem network_send_cex :
    statsErrors (send_udp mkNetworkStats .osError .timeout).1 = 0 ∧
    ¬ statsErrors (send_udp mkNetworkStats .osError .timeout).1 =
        statsErrors mkNetworkStats + 1 ∧
    statsTimeouts (send_udp mkNetworkStats .osError .timeout).1 = 0 ∧
    statsTotal (send_udp mkNetworkStats .osError .timeout).1 = 1 ∧
    (send_udp mkNetworkStats .osError .timeout).2 = [] := by
  decide

/-- C3 amended: every send attempt increments total_requests exactly once
and never raises (send_tcp and send_udp are total); a receive timeout
increments timeouts and returns empty bytes; any other transport error
during connect, send or receive on the TCP path, or during receive on the
UDP path, increments errors and returns empty bytes; but a failure of the
UDP datagram send returns empty bytes without incrementing either failure
counter. -/
theorem network_send_spec (st : StatsObj) (resp : Bytes) (oc : TcpOutcome)
    (so : UdpSendOutcome) (ro : UdpRecvOutcome) :
    statsTotal (send_tcp st oc).1 = statsTotal st + 1 ∧
    statsTotal (send_udp st so ro).1 = statsTotal st + 1 ∧
    statsTimeouts (send_tcp st .timeout).1 = statsTimeouts st + 1 ∧
    statsErrors (send_tcp st .timeout).1 = statsErrors st ∧
    (send_tcp st .timeout).2 = [] ∧
    statsErrors (send_tcp st .sockError).1 = statsErrors st + 1 ∧
    statsTimeouts (send_tcp st .sockError).1 = statsTimeouts st ∧
    (send_tcp st .sockError).2 = [] ∧
    (send_tcp st (.ok resp)).2 = resp ∧
    statsTimeouts (send_tcp st (.ok resp)).1 = statsTimeouts st ∧
    statsErrors (send_tcp st (.ok resp)).1 = statsErrors st ∧
    statsTimeouts (send_udp st .sent .timeout).1 = statsTimeouts st + 1 ∧
    statsErrors (send_udp st .sent .timeout).1 = statsErrors st ∧
    (send_udp st .sent .timeout).2 = [] ∧
    statsErrors (send_udp st .sent .sockError).1 = statsErrors st + 1 ∧
    statsTimeouts (send_udp st .sent .sockError).1 = statsTimeouts st ∧
    (send_udp st .sent .sockError).2 = [] ∧
    (send_udp st .sent (.ok resp)).2 = resp ∧
    statsTimeouts (send_udp st .osError ro).1 = statsTimeouts st ∧
    statsErrors (send_udp st .osError ro).1 = statsErrors st ∧
    (send_udp st .osError ro).2 = [] := by
  refine ⟨?_, ?_, rfl, rfl, rfl, rfl, rfl, rfl, rfl, rfl, rfl, rfl, rfl, rfl,
    rfl, rfl, rfl, rfl, rfl, rfl, rfl⟩
  · cases oc <;> rfl
  · cases so <;> [cases ro <;> rfl; rfl]

/- C9: stats construction and independence. -/

/-- C9 counterexample: the start timestamp of a freshly constructed
Network is the value evaluated at class-definition (import) time, not the
construction time: an instance constructed at clock 1 under a class whose
import-time clock was 0 reports start time 0, and two instances
constructed at different times report the same start time. -/
theorem network_stats_start_time_cex :
    statsStartTime ⟨0⟩ (network_init "h" 80 .TCP 5 "" 1).stats = 0 ∧
    (0 : Nat) ≠ 1 ∧
    statsStartTime ⟨0⟩ (network_init "h" 80 .TCP 5 "" 1).stats =
      statsStartTime ⟨0⟩ (network_init "h2" 81 .UDP 5 "" 999).stats := by
  decide

/-- C9 amended: every freshly constructed Network starts its counters
total_requests, timeouts and errors at zero, and those counters are
per-instance (a send on one instance leaves any other stats object
untouched); but the start timestamp is the single import-time class value,
shared by all instances regardless of their construction times. -/
theorem network_stats_init_spec (cls : NetworkStatsClass) (host : String)
    (port : Nat) (proto : NetworkProtocol) (tmo : Nat) (ip : String) (ct : Nat)
    (w : StatsObj × StatsObj) (oc : TcpOutcome) :
    statsTotal (network_init host port proto tmo ip ct).stats = 0 ∧
    statsTimeouts (network_init host port proto tmo ip ct).stats = 0 ∧
    statsErrors (network_init host port proto tmo ip ct).stats = 0 ∧
    statsStartTime cls (network_init host port proto tmo ip ct).stats = cls.start_time ∧
    (world_send_fst w oc).1.2 = w.2 :=
  ⟨rfl, rfl, rfl, rfl, rfl⟩

/- C10: parse_url failure mode. -/

theorem splitColon_ne_nil (l : List Char) : splitColon l ≠ [] := by
  cases l with
  | nil => simp [splitColon]
  | cons c rest =>
    rw [splitColon]
    split
    · simp
    · split <;> simp

theorem splitColon_no_colon (l : List Char) (h : ':' ∉ l) : splitColon l = [l] := by
  induction l with
  | nil => rfl
  | cons c rest ih =>
    have hc : ¬ c = ':' := fun hc => h (hc ▸ List.mem_cons_self c rest)
    have hr : splitColon rest = [rest] := ih (fun hm => h (List.mem_cons_of_mem c hm))
    rw [splitColon, if_neg hc, hr]

theorem joinColon_splitColon (l : List Char) : joinColon (splitColon l) = l := by
  induction l with
  | nil => rfl
  | cons c rest ih =>
    rw [splitColon]
    by_cases hc : c = ':'
    · rw [if_pos hc]
      rcases hs : splitColon rest with _ | ⟨x, xs⟩
      · exact absurd hs (splitColon_ne_nil rest)
      · have : joinColon ([] :: x :: xs) = [] ++ ':' :: joinColon (x :: xs) := rfl
        rw [this, ← hs, ih, hc]
        rfl
    · rw [if_neg hc]
      rcases hs : splitColon rest with _ | ⟨x, xs⟩
      · exact absurd hs (splitColon_ne_nil rest)
      · rcases xs with _ | ⟨y, ys⟩
        · have : joinColon [c :: x] = c :: x := rfl
          rw [this]
          have hx : joinColon [x] = x := rfl
          rw [hs] at ih
          rw [hx] at ih
          rw [ih]
        · have h1 : joinColon ((c :: x) :: y :: ys) = (c :: x) ++ ':' :: joinColon (y :: ys) := rfl
          have h2 : joinColon (x :: y :: ys) = x ++ ':' :: joinColon (y :: ys) := rfl
          rw [hs, h2] at ih
          rw [h1, List.cons_append, ih]

/-- C10: parse_url unpacks netloc.split on the colon into exactly a host
and a port and converts the port with int; a netloc without a colon (no
explicit port) makes the unpacking raise ValueError, which neither
parse_url nor the SOAP and ESP constructors that call it before any
grammar work handle; a normal return happens only for a netloc of the
form host colon port whose port parses as an int. -/
theorem parse_url_spec (scheme netloc : List Char) :
    (':' ∉ netloc →
      parse_url scheme netloc = .error .valueError ∧
      soap_protocol_init scheme netloc = .error .valueError ∧
      (∀ cb, esp_generator_init scheme netloc cb = .error .valueError)) ∧
    (∀ b h p, parse_url scheme netloc = .ok (b, h, p) →
      ∃ ps, netloc = h ++ ':' :: ps ∧ pyInt? ps = some p ∧
        b = scheme ++ String.toList "://" ++ netloc) := by
  constructor
  · intro hnc
    have hs : splitColon netloc = [netloc] := splitColon_no_colon netloc hnc
    have hp : parse_url scheme netloc = .error .valueError := by
      rw [parse_url, hs]
    exact ⟨hp, by rw [soap_protocol_init, hp], fun cb => by rw [esp_generator_init, hp]⟩
  · intro b h p hok
    have hj := joinColon_splitColon netloc
    rw [parse_url] at hok
    rcases hs : splitColon netloc with _ | ⟨x, xs⟩
    · exact absurd hs (splitColon_ne_nil netloc)
    · rcases xs with _ | ⟨y, ys⟩
      · rw [hs] at hok
        simp at hok
      · rcases ys with _ | ⟨z, zs⟩
        · rw [hs] at hok
          rcases hpi : pyInt? y with _ | n
          · simp only [hpi] at hok
            exact absurd hok (by simp)
          · simp only [hpi, Except.ok.injEq, Prod.mk.injEq] at hok
            obtain ⟨hb, hx, hn⟩ := hok
            refine ⟨y, ?_, ?_, hb.symm⟩
            · rw [hs] at hj
              have : joinColon [x, y] = x ++ ':' :: y := rfl
              rw [this] at hj
              rw [← hj, hx]
            · rw [hpi, hn]
        · rw [hs] at hok
          simp at hok

/-- C10 witness: a URL without an explicit port fails parse_url and both
constructors with ValueError. -/
theorem parse_url_spec_witness :
    parse_url (String.toList "http") (String.toList "192.168.1.1") = .error .valueError ∧
    soap_protocol_init (String.toList "http") (String.toList "192.168.1.1") = .error .valueError ∧
    esp_generator_init (String.toList "http") (String.toList "192.168.1.1") "cb" =
      .error .valueError := by
  have h := (parse_url_spec (String.toList "http") (String.toList "192.168.1.1")).1 (by decide)
  exact ⟨h.1, h.2.1, h.2.2 "cb"⟩

/- C4: the injection mutator. -/

theorem add_delimiters_eq (ds : List Nat) (c : Bytes) :
    add_delimiters ds c = c ++ (ds.map (fun d => delimiters.getD d [])).flatten := by
  induction ds generalizing c with
  | nil => simp [add_delimiters]
  | cons d ds ih =>
    rw [add_delimiters, List.foldl_cons]
    have : List.foldl (fun c d => c ++ delimiters.getD d []) (c ++ delimiters.getD d []) ds
        = add_delimiters ds (c ++ delimiters.getD d []) := rfl
    rw [this, ih]
    simp [List.append_assoc]

theorem getD_mem_of_lt {α : Type} (l : List α) (n : Nat) (d : α) (h : n < l.length) :
    l.getD n d ∈ l := by
  rw [List.getD_eq_getElem?_getD, List.getElem?_eq_getElem h]
  exact List.getElem_mem h

/-- C4: for every non-empty slot list, Injection.fuzz keeps the slot
count, appends to the slot at the drawn index a payload made of the
literal reboot wrapped in one of the five enclosure pairs followed by
between 0 and 6 drawn delimiters (two passes of 0 to 3 draws), leaves
every other slot byte-for-byte unchanged, and makes exactly that one slot
longer than its input. -/
theorem injection_fuzz_spec (r : InjectionRand) (request : List Bytes)
    (hidx : r.slotIdx < request.length)
    (henc : r.enclosureIdx < enclosures.length)
    (hd1 : r.delims1.length ≤ 3) (hd2 : r.delims2.length ≤ 3)
    (hd1v : ∀ d ∈ r.delims1, d < delimiters.length)
    (hd2v : ∀ d ∈ r.delims2, d < delimiters.length) :
    (injection_fuzz r request).length = request.length ∧
    (∃ e ∈ enclosures, ∃ ds : List Bytes,
      (∀ x ∈ ds, x ∈ delimiters) ∧ ds.length ≤ 6 ∧
      (injection_fuzz r request).getD r.slotIdx [] =
        request.getD r.slotIdx [] ++ (e.1 ++ injection_cmd ++ e.2 ++ ds.flatten)) ∧
    (∀ j, j ≠ r.slotIdx → (injection_fuzz r request).getD j [] = request.getD j []) ∧
    (∀ j, (request.getD j []).length < ((injection_fuzz r request).getD j []).length
      ↔ j = r.slotIdx) := by
  have hto : (request.take r.slotIdx).length = r.slotIdx := by
    rw [List.length_take]
    exact Nat.min_eq_left hidx.le
  have hform : injection_fuzz r request = request.take r.slotIdx ++
      ((request.getD r.slotIdx [] ++ get_injection r injection_cmd)
        :: request.drop (r.slotIdx + 1)) := by
    rw [injection_fuzz]
    simp [List.append_assoc]
  have hat : (injection_fuzz r request).getD r.slotIdx [] =
      request.getD r.slotIdx [] ++ get_injection r injection_cmd := by
    rw [hform, List.getD_eq_getElem?_getD,
      List.getElem?_append_right (le_of_eq hto), hto]
    simp
  have hother : ∀ j, j ≠ r.slotIdx →
      (injection_fuzz r request).getD j [] = request.getD j [] := by
    intro j hj
    rcases Nat.lt_or_ge j r.slotIdx with hlt | hge
    · rw [hform, List.getD_eq_getElem?_getD, List.getElem?_append, hto, if_pos hlt,
        List.getElem?_take, if_pos hlt, List.getD_eq_getElem?_getD]
    · have hgt : r.slotIdx < j := lt_of_le_of_ne hge (Ne.symm hj)
      have hlen2 : (request.take r.slotIdx).length ≤ j := by
        rw [hto]
        exact hgt.le
      rw [hform, List.getD_eq_getElem?_getD, List.getElem?_append_right hlen2, hto]
      have hsub : j - r.slotIdx = (j - r.slotIdx - 1) + 1 := by omega
      rw [hsub, List.getElem?_cons_succ, List.getElem?_drop]
      have hidx2 : r.slotIdx + 1 + (j - r.slotIdx - 1) = j := by omega
      rw [hidx2, List.getD_eq_getElem?_getD]
  have hinjlen : 0 < (get_injection r injection_cmd).length := by
    rw [get_injection, add_delimiters_eq, add_delimiters_eq, add_enclosures]
    have : injection_cmd.length = 6 := rfl
    simp [List.length_append]
    omega
  refine ⟨?_, ?_, hother, ?_⟩
  · rw [hform]
    simp [List.length_append, hto, List.length_drop]
    omega
  · refine ⟨enclosures.getD r.enclosureIdx ([], []), getD_mem_of_lt _ _ _ henc,
      ((r.delims1 ++ r.delims2).map (fun d => delimiters.getD d [])), ?_, ?_, ?_⟩
    · intro x hx
      rcases List.mem_map.mp hx with ⟨d, hd, hxd⟩
      rcases List.mem_append.mp hd with hd | hd
      · exact hxd ▸ getD_mem_of_lt _ _ _ (hd1v d hd)
      · exact hxd ▸ getD_mem_of_lt _ _ _ (hd2v d hd)
    · rw [List.length_map, List.length_append]
      omega
    · rw [hat, get_injection, add_delimiters_eq, add_delimiters_eq, add_enclosures,
        List.map_append, List.flatten_append]
      simp [List.append_assoc]
  · intro j
    constructor
    · intro hlen
      by_contra hj
      rw [hother j hj] at hlen
      exact lt_irrefl _ hlen
    · intro hj
      subst hj
      rw [hat, List.length_append]
      omega

/-- C4 witness: the theorem applied to a one-slot list with all draws at
zero. -/
theorem injection_fuzz_spec_witness :
    (injection_fuzz ⟨0, [], [], 0⟩ [[65]]).length = 1 :=
  (injection_fuzz_spec ⟨0, [], [], 0⟩ [[65]] (by decide) (by decide) (by decide)
    (by decide) (by decide) (by decide)).1

/- Dict lemmas shared by the subscription-table claims. -/

theorem dictGet?_eq_none_of_not_mem {α : Type} (d : List (Bytes × α)) (k : Bytes)
    (h : k ∉ d.map Prod.fst) : dictGet? d k = none := by
  rw [dictGet?, List.find?_eq_none.mpr]
  · rfl
  · intro x hx hbeq
    have hxk : x.1 = k := by simpa using hbeq
    exact h (hxk ▸ List.mem_map_of_mem Prod.fst hx)

theorem dictGet?_cons {α : Type} (p : Bytes × α) (t : List (Bytes × α)) (k : Bytes) :
    dictGet? (p :: t) k = if (p.1 == k) = true then some p.2 else dictGet? t k := by
  by_cases h : (p.1 == k) = true
  · simp [dictGet?, List.find?_cons, h]
  · simp only [dictGet?, List.find?_cons]
    have hf : (p.1 == k) = false := by simpa using h
    simp [hf, h]

theorem dictErase_get_self {α : Type} (d : List (Bytes × α)) (k : Bytes)
    (hnodup : (d.map Prod.fst).Nodup) : dictGet? (dictErase d k) k = none := by
  induction d with
  | nil => rfl
  | cons p t ih =>
    rw [List.map_cons] at hnodup
    have hnd := List.nodup_cons.mp hnodup
    rw [dictErase, List.eraseP_cons]
    by_cases hpk : (p.1 == k) = true
    · rw [hpk, cond_true]
      have hk : p.1 = k := by simpa using hpk
      exact dictGet?_eq_none_of_not_mem t k (hk ▸ hnd.1)
    · have hfalse : (p.1 == k) = false := by simpa using hpk
      rw [hfalse, cond_false, dictGet?_cons, if_neg hpk]
      exact ih hnd.2

theorem dictErase_get_other {α : Type} (d : List (Bytes × α)) (k k2 : Bytes)
    (hkk : k2 ≠ k) : dictGet? (dictErase d k) k2 = dictGet? d k2 := by
  induction d with
  | nil => rfl
  | cons p t ih =>
    rw [dictErase, List.eraseP_cons]
    by_cases hpk : (p.1 == k) = true
    · rw [hpk, cond_true]
      have hk : p.1 = k := by simpa using hpk
      have hne2 : ¬ ((p.1 == k2) = true) := by
        rw [hk, beq_iff_eq]
        exact fun h => hkk h.symm
      rw [dictGet?_cons, if_neg hne2]
    · have hfalse : (p.1 == k) = false := by simpa using hpk
      rw [hfalse, cond_false, dictGet?_cons, dictGet?_cons]
      by_cases hp2 : (p.1 == k2) = true
      · rw [if_pos hp2, if_pos hp2]
      · rw [if_neg hp2, if_neg hp2]
        exact ih

theorem dictGet?_map_insert {α : Type} (d : List (Bytes × α)) (k : Bytes) (v : α)
    (h : dictContains d k = true) :
    dictGet? (d.map (fun p => if p.1 == k then (k, v) else p)) k = some v := by
  induction d with
  | nil => simp [dictContains] at h
  | cons p t ih =>
    by_cases hpk : (p.1 == k) = true
    · simp only [List.map_cons, if_pos hpk]
      rw [dictGet?_cons]
      simp
    · simp only [List.map_cons, if_neg hpk]
      rw [dictGet?_cons, if_neg hpk]
      have ht : dictContains t k = true := by
        rw [dictContains, List.any_cons] at h
        rw [dictContains]
        rcases Bool.or_eq_true_iff.mp h with hc | hc
        · exact absurd hc hpk
        · exact hc
      exact ih ht

theorem dictGet?_append_single {α : Type} (d : List (Bytes × α)) (k : Bytes) (v : α)
    (h : dictContains d k = false) : dictGet? (d ++ [(k, v)]) k = some v := by
  induction d with
  | nil =>
    rw [List.nil_append, dictGet?_cons]
    simp
  | cons p t ih =>
    have hsplit : (p.1 == k) = false ∧ t.any (fun q => q.1 == k) = false :=
      Bool.or_eq_false_iff.mp (by simpa [dictContains, List.any_cons] using h)
    rw [List.cons_append, dictGet?_cons, if_neg (by simp [hsplit.1])]
    exact ih (by simp [dictContains, hsplit.2])

theorem dictGet?_insert {α : Type} (d : List (Bytes × α)) (k : Bytes) (v : α) :
    dictGet? (dictInsert d k v) k = some v := by
  rw [dictInsert]
  by_cases h : dictContains d k = true
  · rw [if_pos h]
    exact dictGet?_map_insert d k v h
  · have hf : dictContains d k = false := by simpa using h
    rw [if_neg (by simp [hf])]
    exact dictGet?_append_single d k v hf

/- C5: unsubscribe consumes the selected SID. -/

/-- C5 counterexample: with a table containing one entry whose SID is the
empty byte string, get_unsubscribe_request selects that SID from the
non-empty table, yet deletes nothing (the Python truthiness test treats
the empty SID like None) and builds the request with the placeholder SID
instead. -/
theorem get_unsubscribe_request_cex :
    cexEspGen.sids ≠ [] ∧
    (cexEspGen.sids.map Prod.fst).getD (zeroEspRand.choiceNat (cexEspGen.sids.map Prod.fst).length) [] = [] ∧
    (get_unsubscribe_request zeroEspRand cexEspGen).2.sids = [([], "e")] ∧
    dictGet? (get_unsubscribe_request zeroEspRand cexEspGen).2.sids [] = some "e" ∧
    (get_unsubscribe_request zeroEspRand cexEspGen).1.sid = strBytes "uuid:1234-5678-90ab-cdef" := by
  refine ⟨by decide, by decide, by decide, by decide, by decide⟩

/-- C5 amended: whenever get_unsubscribe_request draws a non-empty SID
from a non-empty subscription table, that SID is deleted from the table
before the Unsubscribe request object is built, so immediately afterwards
the table no longer contains that SID while every other binding is kept;
a drawn SID that is the empty byte string is treated like an empty table
(no deletion, placeholder SID); and no other request-synthesis operation
removes entries (renewal and new-subscribe leave the table unchanged). -/
theorem get_unsubscribe_request_spec (r : EspRand) (g : ESPGen)
    (hnodup : (g.sids.map Prod.fst).Nodup) :
    (∀ sid, g.sids ≠ [] →
      sid = (g.sids.map Prod.fst).getD (r.choiceNat (g.sids.map Prod.fst).length) [] →
      sid ≠ [] →
      (get_unsubscribe_request r g).1.sid = sid ∧
      (get_unsubscribe_request r g).2.sids = dictErase g.sids sid ∧
      dictGet? (get_unsubscribe_request r g).2.sids sid = none ∧
      (∀ k, k ≠ sid → dictGet? (get_unsubscribe_request r g).2.sids k = dictGet? g.sids k)) ∧
    (get_renewal_subscribe_request r g).2 = g ∧
    (get_new_subscribe_request r g).2.sids = g.sids := by
  refine ⟨?_, ?_, rfl⟩
  · intro sid hne hsid hsidne
    have hE : (g.sids.map Prod.fst).isEmpty = false := by
      cases hgs : g.sids with
      | nil => exact absurd hgs hne
      | cons p t => rfl
    have ht : pyTruthyBytes (some sid) = true := by
      rcases sid with _ | ⟨c, cs⟩
      · exact absurd rfl hsidne
      · rfl
    have hu : get_unsubscribe_request r g =
        (mkUnsubscribe ((dictGet? g.sids sid).getD "") g.host g.port sid,
         { g with sids := dictErase g.sids sid }) := by
      unfold get_unsubscribe_request
      simp only [hE, Bool.false_eq_true, if_false, ← hsid, ht, if_true, Option.getD_some]
    rw [hu]
    refine ⟨rfl, rfl, dictErase_get_self g.sids sid hnodup,
      fun k hk => dictErase_get_other g.sids sid k hk⟩
  · unfold get_renewal_subscribe_request
    dsimp only
    split <;> split <;> rfl

/-- C5 witness: the amended theorem applied to a one-entry table. -/
theorem get_unsubscribe_request_spec_witness :
    (get_unsubscribe_request zeroEspRand espGenW2).1.sid = strBytes "s1" ∧
    dictGet? (get_unsubscribe_request zeroEspRand espGenW2).2.sids (strBytes "s1") = none := by
  have h := (get_unsubscribe_request_spec zeroEspRand espGenW2 (by decide)).1
    (strBytes "s1") (by decide) (by decide) (by decide)
  exact ⟨h.1, h.2.2.1⟩

/- C6: SID response tracking. -/

theorem scanValue_sound (l : Bytes) : ∀ v, scanValue l = some v →
    10 ∉ v ∧ ∃ post, l = v ++ 13 :: 10 :: post := by
  induction l with
  | nil => intro v h; simp [scanValue] at h
  | cons c rest ih =>
    intro v h
    cases rest with
    | nil => simp [scanValue] at h
    | cons d rest2 =>
      rw [scanValue] at h
      by_cases h1 : c = 13 ∧ d = 10
      · rw [if_pos h1] at h
        have hv : v = [] := by
          injection h with h
          exact h.symm
        subst hv
        refine ⟨by simp, rest2, ?_⟩
        rw [h1.1, h1.2]
        rfl
      · rw [if_neg h1] at h
        by_cases h2 : c = 10
        · rw [if_pos h2] at h
          cases h
        · rw [if_neg h2] at h
          obtain ⟨w, hw, hcv⟩ := Option.map_eq_some'.mp h
          obtain ⟨h10, post, hpost⟩ := ih w hw
          refine ⟨?_, post, ?_⟩
          · rw [← hcv]
            intro hmem
            rcases List.mem_cons.mp hmem with hh | hh
            · exact h2 hh.symm
            · exact h10 hh
          · rw [← hcv, List.cons_append, ← hpost]

theorem scanValue_complete (v post : Bytes) (hv : 10 ∉ v) :
    scanValue (v ++ 13 :: 10 :: post) = some v := by
  induction v with
  | nil => rfl
  | cons c v ih =>
    have hc : c ≠ 10 := fun h => hv (h ▸ List.mem_cons_self c v)
    have hv2 : 10 ∉ v := fun h => hv (List.mem_cons_of_mem c h)
    cases v with
    | nil =>
      show scanValue (c :: 13 :: 10 :: post) = some [c]
      rw [scanValue, if_neg (by simp), if_neg hc]
      have hin : scanValue (13 :: 10 :: post) = some [] := by
        rw [scanValue, if_pos ⟨rfl, rfl⟩]
      rw [hin]
      rfl
    | cons d v2 =>
      have hd : d ≠ 10 := fun h => hv2 (h ▸ List.mem_cons_self d v2)
      show scanValue (c :: ((d :: v2) ++ 13 :: 10 :: post)) = some (c :: d :: v2)
      rw [List.cons_append, scanValue, if_neg (fun hh => hd hh.2), if_neg hc,
        ← List.cons_append, ih hv2]
      rfl

theorem findSID_sound (l : Bytes) : ∀ v, findSID l = some v →
    10 ∉ v ∧ ∃ pre post, l = pre ++ sidTag ++ v ++ 13 :: 10 :: post := by
  induction l with
  | nil => intro v h; simp [findSID] at h
  | cons c rest ih =>
    intro v h
    rw [findSID] at h
    by_cases hpre : sidTag.isPrefixOf (c :: rest) = true
    · rw [if_pos hpre] at h
      rcases hscan : scanValue (List.drop sidTag.length (c :: rest)) with _ | w
      · rw [hscan] at h
        obtain ⟨h10, pre, post, hl⟩ := ih v h
        exact ⟨h10, c :: pre, post, by simp [hl, List.cons_append, List.append_assoc]⟩
      · rw [hscan] at h
        have hwv : w = v := by injection h
        subst hwv
        obtain ⟨suf, hsuf⟩ := List.isPrefixOf_iff_prefix.mp hpre
        have hdrop : List.drop sidTag.length (c :: rest) = suf := by
          rw [← hsuf, List.drop_left]
        rw [hdrop] at hscan
        obtain ⟨h10, post, hpost⟩ := scanValue_sound suf w hscan
        refine ⟨h10, [], post, ?_⟩
        rw [List.nil_append, ← hsuf, hpost, List.append_assoc]
    · rw [if_neg hpre] at h
      obtain ⟨h10, pre, post, hl⟩ := ih v h
      exact ⟨h10, c :: pre, post, by simp [hl, List.cons_append, List.append_assoc]⟩

theorem findSID_complete (pre : Bytes) : ∀ v post : Bytes, 10 ∉ v →
    ∃ w, findSID (pre ++ sidTag ++ v ++ 13 :: 10 :: post) = some w := by
  induction pre with
  | nil =>
    intro v post hv
    have hsh : ([] : Bytes) ++ sidTag ++ v ++ 13 :: 10 :: post =
        83 :: (strBytes "ID: " ++ (v ++ 13 :: 10 :: post)) := by
      simp [List.append_assoc]
      rfl
    rw [hsh]
    have hsh2 : (83 : Nat) :: (strBytes "ID: " ++ (v ++ 13 :: 10 :: post)) =
        sidTag ++ (v ++ 13 :: 10 :: post) := rfl
    have hpre : sidTag.isPrefixOf (83 :: (strBytes "ID: " ++ (v ++ 13 :: 10 :: post))) = true := by
      rw [hsh2]
      exact List.isPrefixOf_iff_prefix.mpr (List.prefix_append _ _)
    have hdrop : List.drop sidTag.length (83 :: (strBytes "ID: " ++ (v ++ 13 :: 10 :: post))) =
        v ++ 13 :: 10 :: post := by
      rw [hsh2, List.drop_left]
    rw [findSID, if_pos hpre, hdrop, scanValue_complete v post hv]
    exact ⟨v, rfl⟩
  | cons a pre ih =>
    intro v post hv
    have hsh : (a :: pre) ++ sidTag ++ v ++ 13 :: 10 :: post =
        a :: (pre ++ sidTag ++ v ++ 13 :: 10 :: post) := by
      simp [List.cons_append]
    rw [hsh, findSID]
    by_cases hpre : sidTag.isPrefixOf (a :: (pre ++ sidTag ++ v ++ 13 :: 10 :: post)) = true
    · rw [if_pos hpre]
      rcases hscan : scanValue (List.drop sidTag.length
          (a :: (pre ++ sidTag ++ v ++ 13 :: 10 :: post))) with _ | w
      · obtain ⟨w, hw⟩ := ih v post hv
        exact ⟨w, hw⟩
      · exact ⟨w, rfl⟩
    · rw [if_neg hpre]
      exact ih v post hv

/-- C6: when the response contains a match of the SID header regex, the
matched value is bound to the current event in the subscription table
(handle_sid inserts the first, leftmost-lazy match, whose group can hold
any bytes except a bare LF); a response with no such substring leaves the
generator, table included, unchanged. -/
theorem esp_handle_sid_spec (g : ESPGen) (response : Bytes) :
    (∀ v, findSID response = some v →
      dictGet? (esp_handle_sid g response).sids v = some g.event) ∧
    ((¬ ∃ pre v post, 10 ∉ v ∧ response = pre ++ sidTag ++ v ++ 13 :: 10 :: post) →
      esp_handle_sid g response = g) ∧
    (∀ v, findSID response = some v →
      10 ∉ v ∧ ∃ pre post, response = pre ++ sidTag ++ v ++ 13 :: 10 :: post) ∧
    (∀ pre v post, 10 ∉ v → response = pre ++ sidTag ++ v ++ 13 :: 10 :: post →
      ∃ w, findSID response = some w) := by
  refine ⟨?_, ?_, fun v h => findSID_sound response v h,
    fun pre v post hv hr => hr ▸ findSID_complete pre v post hv⟩
  · intro v h
    rw [esp_handle_sid, h]
    exact dictGet?_insert g.sids v g.event
  · intro hno
    rcases hf : findSID response with _ | v
    · rw [esp_handle_sid, hf]
    · obtain ⟨h10, pre, post, hl⟩ := findSID_sound response v hf
      exact absurd ⟨pre, v, post, h10, hl⟩ hno

/-- C6 witness: a response carrying SID uuid-abc inserts it bound to the
remembered event of the generator. -/
theorem esp_handle_sid_spec_witness :
    dictGet? (esp_handle_sid espGenW
      (strBytes "HTTP/1.1 200 OK\r\nSID: uuid:abc\r\n\r\n")).sids
      (strBytes "uuid:abc") = some espGenW.event :=
  (esp_handle_sid_spec espGenW _).1 (strBytes "uuid:abc") (by decide)

/- C7: argument value synthesis. -/

/-- C7: the synthesized body value follows the fixed decision order: a
non-empty allowed_values list yields one of its members; otherwise a
non-empty default_value is used verbatim; otherwise the value is
dispatched on the data type tag, and for the tags ui1, ui2, ui4, i1, i2
and i4 it is the decimal rendering of an integer within the declared
unsigned or two's-complement signed N-bit range. -/
theorem get_argument_value_spec (r : ArgRand) (arg : Argument)
    (hri : ∀ a b : Int, a ≤ b → a ≤ r.randint a b ∧ r.randint a b ≤ b)
    (hch : ∀ n, 0 < n → r.choiceNat n < n) :
    (arg.allowed_values ≠ [] →
      get_argument_value_bytes r arg ∈ arg.allowed_values.map strBytes) ∧
    (arg.allowed_values = [] → arg.default_value ≠ "" →
      get_argument_value_bytes r arg = strBytes arg.default_value) ∧
    (arg.allowed_values = [] → arg.default_value = "" → arg.data_type = "ui1" →
      ∃ k : Int, 0 ≤ k ∧ k ≤ 255 ∧ get_argument_value_bytes r arg = intBytes k) ∧
    (arg.allowed_values = [] → arg.default_value = "" → arg.data_type = "ui2" →
      ∃ k : Int, 0 ≤ k ∧ k ≤ 65535 ∧ get_argument_value_bytes r arg = intBytes k) ∧
    (arg.allowed_values = [] → arg.default_value = "" → arg.data_type = "ui4" →
      ∃ k : Int, 0 ≤ k ∧ k ≤ 4294967295 ∧ get_argument_value_bytes r arg = intBytes k) ∧
    (arg.allowed_values = [] → arg.default_value = "" → arg.data_type = "i1" →
      ∃ k : Int, -128 ≤ k ∧ k ≤ 127 ∧ get_argument_value_bytes r arg = intBytes k) ∧
    (arg.allowed_values = [] → arg.default_value = "" → arg.data_type = "i2" →
      ∃ k : Int, -32768 ≤ k ∧ k ≤ 32767 ∧ get_argument_value_bytes r arg = intBytes k) ∧
    (arg.allowed_values = [] → arg.default_value = "" → arg.data_type = "i4" →
      ∃ k : Int, -2147483648 ≤ k ∧ k ≤ 2147483647 ∧
        get_argument_value_bytes r arg = intBytes k) := by
  refine ⟨?_, ?_, ?_, ?_, ?_, ?_, ?_, ?_⟩
  · intro hall
    have hlen : 0 < arg.allowed_values.length := List.length_pos.mpr hall
    have hE : (!arg.allowed_values.isEmpty) = true := by
      cases hgs : arg.allowed_values with
      | nil => exact absurd hgs hall
      | cons a t => rfl
    rw [get_argument_value_bytes, if_pos hE]
    exact List.mem_map_of_mem strBytes (getD_mem_of_lt _ _ _ (hch _ hlen))
  · intro hall hdef
    simp [get_argument_value_bytes, hall, hdef]
  · intro hall hdef hdt
    refine ⟨r.randint 0 255, (hri 0 255 (by norm_num)).1, (hri 0 255 (by norm_num)).2, ?_⟩
    simp [get_argument_value_bytes, hall, hdef, hdt]
  · intro hall hdef hdt
    refine ⟨r.randint 0 65535, (hri 0 65535 (by norm_num)).1,
      (hri 0 65535 (by norm_num)).2, ?_⟩
    simp [get_argument_value_bytes, hall, hdef, hdt]
  · intro hall hdef hdt
    refine ⟨r.randint 0 4294967295, (hri 0 4294967295 (by norm_num)).1,
      (hri 0 4294967295 (by norm_num)).2, ?_⟩
    simp [get_argument_value_bytes, hall, hdef, hdt]
  · intro hall hdef hdt
    refine ⟨r.randint (-128) 127, (hri (-128) 127 (by norm_num)).1,
      (hri (-128) 127 (by norm_num)).2, ?_⟩
    simp [get_argument_value_bytes, hall, hdef, hdt]
  · intro hall hdef hdt
    refine ⟨r.randint (-32768) 32767, (hri (-32768) 32767 (by norm_num)).1,
      (hri (-32768) 32767 (by norm_num)).2, ?_⟩
    simp [get_argument_value_bytes, hall, hdef, hdt]
  · intro hall hdef hdt
    refine ⟨r.randint (-2147483648) 2147483647,
      (hri (-2147483648) 2147483647 (by norm_num)).1,
      (hri (-2147483648) 2147483647 (by norm_num)).2, ?_⟩
    simp [get_argument_value_bytes, hall, hdef, hdt]

/-- C7 witness: the ui1 case applied to a concrete argument and draws. -/
theorem get_argument_value_spec_witness :
    ∃ k : Int, 0 ≤ k ∧ k ≤ 255 ∧
      get_argument_value_bytes dummyArgRand argUi1W = intBytes k :=
  (get_argument_value_spec dummyArgRand argUi1W (fun a _ h => ⟨le_refl a, h⟩)
    (fun _ h => h)).2.2.1 rfl rfl rfl

/- C1: Content-Length extraction machinery. -/

theorem isPrefixOf_false_of_head_ne {a b : Nat} (h : a ≠ b) (p l : Bytes) :
    (a :: p).isPrefixOf (b :: l) = false := by
  simp [List.isPrefixOf, h]

theorem splitCRLF_ne_nil (l : Bytes) : splitCRLF l ≠ [] := by
  rcases l with _ | ⟨c, _ | ⟨d, rest⟩⟩
  · simp [splitCRLF]
  · simp [splitCRLF]
  · rw [splitCRLF]
    split
    · simp
    · split <;> simp

theorem splitCRLF_crlf (l : Bytes) : splitCRLF (13 :: 10 :: l) = [] :: splitCRLF l := by
  rw [splitCRLF, if_pos ⟨rfl, rfl⟩]

theorem splitCRLF_cons_ne {c : Nat} (hc : c ≠ 13) (l : Bytes) :
    splitCRLF (c :: l) = (splitCRLF l).modifyHead (fun t => c :: t) := by
  rcases l with _ | ⟨d, rest⟩
  · simp [splitCRLF]
  · rw [splitCRLF, if_neg (fun hh => hc hh.1)]
    rcases hs : splitCRLF (d :: rest) with _ | ⟨x, xs⟩
    · exact absurd hs (splitCRLF_ne_nil _)
    · rfl

theorem splitCRLF_append_noCR (a x : Bytes) (ha : noCR a) :
    splitCRLF (a ++ x) = (splitCRLF x).modifyHead (fun t => a ++ t) := by
  induction a with
  | nil =>
    rcases hs : splitCRLF x with _ | ⟨y, ys⟩
    · exact absurd hs (splitCRLF_ne_nil _)
    · simp [hs]
  | cons c a ih =>
    have hc : c ≠ 13 := ha c (List.mem_cons_self c a)
    have ha2 : noCR a := fun d hd => ha d (List.mem_cons_of_mem c hd)
    rw [List.cons_append, splitCRLF_cons_ne hc, ih ha2]
    rcases hs : splitCRLF x with _ | ⟨y, ys⟩
    · exact absurd hs (splitCRLF_ne_nil _)
    · simp

theorem splitCRLF_line {a : Bytes} (ha : noCR a) (x : Bytes) :
    splitCRLF (a ++ 13 :: 10 :: x) = a :: splitCRLF x := by
  rw [splitCRLF_append_noCR a _ ha, splitCRLF_crlf]
  simp

theorem dropAfter_skip_line {a : Bytes} (ha : noCR a) (q x : Bytes) :
    dropAfterSub (13 :: q) (a ++ x) = dropAfterSub (13 :: q) x := by
  induction a with
  | nil => rfl
  | cons c a ih =>
    have hc : c ≠ 13 := ha c (List.mem_cons_self c a)
    have ha2 : noCR a := fun d hd => ha d (List.mem_cons_of_mem c hd)
    have hf := isPrefixOf_false_of_head_ne (fun h => hc h.symm) q (a ++ x)
    rw [List.cons_append, dropAfterSub, if_neg (by simp [hf])]
    exact ih ha2

theorem dropAfter2_skip_line {a : Bytes} (ha : noCR a) (x : Bytes) :
    dropAfterSub crlf2B (a ++ x) = dropAfterSub crlf2B x :=
  dropAfter_skip_line ha [10, 13, 10] x

theorem dropAfter2_skip_ten (x : Bytes) :
    dropAfterSub crlf2B (10 :: x) = dropAfterSub crlf2B x := by
  rw [dropAfterSub, if_neg (by simp [crlf2B, List.isPrefixOf])]

theorem dropAfter_seg {c : Nat} (hc : c ≠ 13) {a : Bytes} (ha : noCR a) (x : Bytes) :
    dropAfterSub crlf2B (13 :: 10 :: ((c :: a) ++ x)) = dropAfterSub crlf2B x := by
  have h1 : dropAfterSub crlf2B (13 :: 10 :: ((c :: a) ++ x)) =
      dropAfterSub crlf2B (10 :: ((c :: a) ++ x)) := by
    have h13c : ((13 : Nat) == c) = false := beq_eq_false_iff_ne.mpr (Ne.symm hc)
    rw [List.cons_append, dropAfterSub, if_neg (by simp [crlf2B, List.isPrefixOf, h13c])]
  rw [h1, dropAfter2_skip_ten]
  exact dropAfter2_skip_line (noCR_cons hc ha) x

theorem dropAfter_blank (x : Bytes) :
    dropAfterSub crlf2B (13 :: 10 :: 13 :: 10 :: x) = some x := by
  rw [dropAfterSub, if_pos (by simp [crlf2B, List.isPrefixOf])]
  rfl

set_option maxHeartbeats 1600000 in
theorem soap_wire_facts (cu h p cl st an body : Bytes)
    (hcu : noCR cu) (hh : noCR h) (hp : noCR p) (hcl : noCR cl)
    (hst : noCR st) (han : noCR an) :
    extract_content_length (soap_finalize_headers [cu, h, p, cl, st, an] ++ body) = some cl ∧
    body_after_headers (soap_finalize_headers [cu, h, p, cl, st, an] ++ body) = some body := by
  have hnc1 : noCR (80 :: (strBytes "OST " ++ cu ++ strBytes " HTTP/1.1")) :=
    noCR_cons (by omega) (noCR_append (noCR_append (by decide) hcu) (by decide))
  have hnc2t : noCR (strBytes "ost: " ++ h ++ strBytes ":" ++ p) :=
    noCR_append (noCR_append (noCR_append (by decide) hh) (by decide)) hp
  have hnc2 : noCR (72 :: (strBytes "ost: " ++ h ++ strBytes ":" ++ p)) :=
    noCR_cons (by omega) hnc2t
  have hnc3t : noCR (strBytes "ontent-Length: " ++ cl) := noCR_append (by decide) hcl
  have hnc3 : noCR (67 :: (strBytes "ontent-Length: " ++ cl)) := noCR_cons (by omega) hnc3t
  have hnc4 : noCR (67 :: strBytes "ontent-Type: text/xml") :=
    noCR_cons (by omega) (by decide)
  have hnc5t : noCR (strBytes "OAPAction: \"" ++ st ++ strBytes "#" ++ an ++ strBytes "\"") :=
    noCR_append (noCR_append (noCR_append (noCR_append (by decide) hst) (by decide)) han)
      (by decide)
  have hnc5 : noCR (83 :: (strBytes "OAPAction: \"" ++ st ++ strBytes "#" ++ an
      ++ strBytes "\"")) := noCR_cons (by omega) hnc5t
  have hw : soap_finalize_headers [cu, h, p, cl, st, an] ++ body =
      (80 :: (strBytes "OST " ++ cu ++ strBytes " HTTP/1.1")) ++ 13 :: 10 ::
      ((72 :: (strBytes "ost: " ++ h ++ strBytes ":" ++ p)) ++ 13 :: 10 ::
      ((67 :: (strBytes "ontent-Length: " ++ cl)) ++ 13 :: 10 ::
      ((67 :: strBytes "ontent-Type: text/xml") ++ 13 :: 10 ::
      ((83 :: (strBytes "OAPAction: \"" ++ st ++ strBytes "#" ++ an ++ strBytes "\""))
        ++ 13 :: 10 :: 13 :: 10 :: body)))) := by
    simp only [soap_finalize_headers, List.cons_append, List.append_assoc]
    rfl
  have hsplit : splitCRLF (soap_finalize_headers [cu, h, p, cl, st, an] ++ body) =
      (80 :: (strBytes "OST " ++ cu ++ strBytes " HTTP/1.1")) ::
      (72 :: (strBytes "ost: " ++ h ++ strBytes ":" ++ p)) ::
      (67 :: (strBytes "ontent-Length: " ++ cl)) ::
      (67 :: strBytes "ontent-Type: text/xml") ::
      (83 :: (strBytes "OAPAction: \"" ++ st ++ strBytes "#" ++ an ++ strBytes "\"")) ::
      [] :: splitCRLF body := by
    rw [hw, splitCRLF_line hnc1, splitCRLF_line hnc2, splitCRLF_line hnc3,
      splitCRLF_line hnc4, splitCRLF_line hnc5, splitCRLF_crlf]
  have hclshape : (67 : Nat) :: (strBytes "ontent-Length: " ++ cl) = clHeader ++ cl := rfl
  have hn1 : clHeader.isPrefixOf (80 :: (strBytes "OST " ++ cu ++ strBytes " HTTP/1.1"))
      = false := by
    have hch : clHeader = 67 :: strBytes "ontent-Length: " := rfl
    rw [hch]
    exact isPrefixOf_false_of_head_ne (by omega) _ _
  have hn2 : clHeader.isPrefixOf (72 :: (strBytes "ost: " ++ h ++ strBytes ":" ++ p))
      = false := by
    have hch : clHeader = 67 :: strBytes "ontent-Length: " := rfl
    rw [hch]
    exact isPrefixOf_false_of_head_ne (by omega) _ _
  have hp3 : clHeader.isPrefixOf (clHeader ++ cl) = true :=
    List.isPrefixOf_iff_prefix.mpr (List.prefix_append _ _)
  constructor
  · rw [extract_content_length, hsplit, hclshape,
      List.find?_cons_of_neg _ (by simp only [hn1]; exact Bool.false_ne_true),
      List.find?_cons_of_neg _ (by simp only [hn2]; exact Bool.false_ne_true),
      List.find?_cons_of_pos _ (by simp only [hp3])]
    rw [Option.map_some', List.drop_left]
  · rw [body_after_headers, hw, dropAfter2_skip_line hnc1,
      dropAfter_seg (by omega) hnc2t, dropAfter_seg (by omega) hnc3t,
      dropAfter_seg (by omega) (by decide : noCR (strBytes "ontent-Type: text/xml")),
      dropAfter_seg (by omega) hnc5t, dropAfter_blank]

/-- C1 counterexample: when the injection strategy mutates the header
slots and the drawn slot index is 3, the payload is appended to the
Content-Length slot itself, so the Content-Length value of the finalized
wire bytes (0reboot) differs from the decimal length of the body that
follows the headers (the empty body, length 0). -/
theorem soap_content_length_cex :
    extract_content_length cexSoapWire = some (strBytes "0reboot") ∧
    body_after_headers cexSoapWire = some [] ∧
    strBytes "0reboot" ≠ natBytes (List.length ([] : Bytes)) := by
  refine ⟨by decide, by decide, by decide⟩

/-- C1 amended: the Content-Length header value in the finalized wire
bytes equals the byte length of the body that follows for the raw
strategy and for the body-mutating branches of the injection, overflow
and radamsa strategies (the headers are rebuilt against the mutated body
length); in the header-mutating branches the header slots, including the
Content-Length slot, are mutated after the length is computed, so the
equality can fail there.  The header slots coming from the device
description are assumed CR-free. -/
theorem soap_content_length_spec (rs : Nat → ArgRand) (ir : InjectionRand)
    (orr : OverflowRand) (binary : String) (ext : Bytes → Bytes)
    (action : Action) (host : String) (port : Nat)
    (hcu : noCR (strBytes action.control_url)) (hh : noCR (strBytes host))
    (hst : noCR (strBytes action.service_type)) (han : noCR (strBytes action.action_name)) :
    (extract_content_length (soap_fuzz_raw rs action host port) =
        some (natBytes (soap_finalize_body (soap_get_body_params rs action)).length) ∧
      body_after_headers (soap_fuzz_raw rs action host port) =
        some (soap_finalize_body (soap_get_body_params rs action))) ∧
    (soap_get_body_params rs action ≠ [] →
      extract_content_length (soap_fuzz_injection rs ir true action host port) =
        some (natBytes (soap_finalize_body
          (injection_fuzz ir (soap_get_body_params rs action))).length) ∧
      body_after_headers (soap_fuzz_injection rs ir true action host port) =
        some (soap_finalize_body (injection_fuzz ir (soap_get_body_params rs action)))) ∧
    (soap_get_body_params rs action ≠ [] →
      extract_content_length (soap_fuzz_overflow rs orr true action host port) =
        some (natBytes (soap_finalize_body
          (overflow_fuzz orr (soap_get_body_params rs action))).length) ∧
      body_after_headers (soap_fuzz_overflow rs orr true action host port) =
        some (soap_finalize_body (overflow_fuzz orr (soap_get_body_params rs action)))) ∧
    (soap_get_body_params rs action ≠ [] →
      extract_content_length (soap_fuzz_radamsa rs binary ext true action host port) =
        some (natBytes (radamsa_fuzz binary ext
          (soap_finalize_body (soap_get_body_params rs action))).length) ∧
      body_after_headers (soap_fuzz_radamsa rs binary ext true action host port) =
        some (radamsa_fuzz binary ext
          (soap_finalize_body (soap_get_body_params rs action)))) := by
  have hcond : ∀ hbp : soap_get_body_params rs action ≠ [],
      (!(soap_get_body_params rs action).isEmpty && true) = true := by
    intro hbp
    cases hgs : soap_get_body_params rs action with
    | nil => exact absurd hgs hbp
    | cons a t => rfl
  refine ⟨?_, ?_, ?_, ?_⟩
  · exact soap_wire_facts (strBytes action.control_url) (strBytes host)
      (natBytes port) (natBytes (soap_finalize_body (soap_get_body_params rs action)).length)
      (strBytes action.service_type) (strBytes action.action_name)
      (soap_finalize_body (soap_get_body_params rs action))
      hcu hh (natBytes_noCR port) (natBytes_noCR _) hst han
  · intro hbp
    have hred : soap_fuzz_injection rs ir true action host port =
        soap_finalize_headers (soap_get_headers_params action host port
          (soap_finalize_body (injection_fuzz ir (soap_get_body_params rs action))).length)
        ++ soap_finalize_body (injection_fuzz ir (soap_get_body_params rs action)) := by
      unfold soap_fuzz_injection
      dsimp only
      rw [if_pos (hcond hbp)]
    rw [hred]
    exact soap_wire_facts _ _ _ _ _ _ _ hcu hh (natBytes_noCR port) (natBytes_noCR _) hst han
  · intro hbp
    have hred : soap_fuzz_overflow rs orr true action host port =
        soap_finalize_headers (soap_get_headers_params action host port
          (soap_finalize_body (overflow_fuzz orr (soap_get_body_params rs action))).length)
        ++ soap_finalize_body (overflow_fuzz orr (soap_get_body_params rs action)) := by
      unfold soap_fuzz_overflow
      dsimp only
      rw [if_pos (hcond hbp)]
    rw [hred]
    exact soap_wire_facts _ _ _ _ _ _ _ hcu hh (natBytes_noCR port) (natBytes_noCR _) hst han
  · intro hbp
    have hred : soap_fuzz_radamsa rs binary ext true action host port =
        soap_finalize_headers (soap_get_headers_params action host port
          (radamsa_fuzz binary ext
            (soap_finalize_body (soap_get_body_params rs action))).length)
        ++ radamsa_fuzz binary ext (soap_finalize_body (soap_get_body_params rs action)) := by
      unfold soap_fuzz_radamsa
      dsimp only
      rw [if_pos (hcond hbp)]
    rw [hred]
    exact soap_wire_facts _ _ _ _ _ _ _ hcu hh (natBytes_noCR port) (natBytes_noCR _) hst han

/-- C1 witness: the raw-strategy part applied to a concrete output-only
action. -/
theorem soap_content_length_spec_witness :
    extract_content_length (soap_fuzz_raw dummyRandSeq cexActionOut "h" 1) =
      some (natBytes (soap_finalize_body
        (soap_get_body_params dummyRandSeq cexActionOut)).length) :=
  (soap_content_length_spec dummyRandSeq cexInjRand ⟨0, false, 0⟩ "" id cexActionOut "h" 1
    (by decide) (by decide) (by decide) (by decide)).1.1

end Upnpfuzz
